import Mathlib

/-!
Shallow embedding of the algorithmic core of `gl-matrix-strict-types`
(vector / quaternion operations over `Float32Array` buffers), with the
scalar type modelled as the real numbers.  Each definition is a direct
translation of the corresponding TypeScript function; branch conditions
(`if (len > 0)`, `w = w || 1.0`, `dot ? 1.0/dot : 0`, ...) are kept
exactly as in the source.
-/

open Real

/-- Three-component vector, mirroring a `vec3` buffer `(x, y, z)`. -/
@[ext]
structure Vec3 where
  x : ℝ
  y : ℝ
  z : ℝ

/-- Four-component vector, mirroring a `vec4` buffer `(x, y, z, w)`.
Quaternions use the same storage, in XYZW order. -/
@[ext]
structure Vec4 where
  x : ℝ
  y : ℝ
  z : ℝ
  w : ℝ

/-- Quaternions are stored as `vec4` buffers in XYZW order. -/
abbrev Quat := Vec4

/-- Column-major 4x4 matrix, mirroring a `mat4` buffer; field `mI`
corresponds to buffer index `m[I]`, i.e. `m[col*4+row]`. -/
structure Mat4 where
  m0 : ℝ
  m1 : ℝ
  m2 : ℝ
  m3 : ℝ
  m4 : ℝ
  m5 : ℝ
  m6 : ℝ
  m7 : ℝ
  m8 : ℝ
  m9 : ℝ
  m10 : ℝ
  m11 : ℝ
  m12 : ℝ
  m13 : ℝ
  m14 : ℝ
  m15 : ℝ

namespace Vec3

/-- `vec3.length`: `sqrt(x*x + y*y + z*z)`. -/
noncomputable def length (a : Vec3) : ℝ :=
  Real.sqrt (a.x * a.x + a.y * a.y + a.z * a.z)

/-- `vec3.squaredLength`: `x*x + y*y + z*z`. -/
def squaredLength (a : Vec3) : ℝ :=
  a.x * a.x + a.y * a.y + a.z * a.z

/-- `vec3.dot`: `a[0]*b[0] + a[1]*b[1] + a[2]*b[2]`. -/
def dot (a b : Vec3) : ℝ :=
  a.x * b.x + a.y * b.y + a.z * b.z

/-- `vec3.cross`. -/
def cross (a b : Vec3) : Vec3 :=
  ⟨a.y * b.z - a.z * b.y, a.z * b.x - a.x * b.z, a.x * b.y - a.y * b.x⟩

/-- `vec3.normalize`: `len = x*x+y*y+z*z; if (len > 0) len = 1/sqrt(len);
out = a * len`.  When the squared length is not positive the scale factor
is left as the unmodified squared-length value. -/
noncomputable def normalize (a : Vec3) : Vec3 :=
  let len0 := a.x * a.x + a.y * a.y + a.z * a.z
  let len := if len0 > 0 then 1 / Real.sqrt len0 else len0
  ⟨a.x * len, a.y * len, a.z * len⟩

/-- `vec3.transformMat4`: homogeneous multiply then divide by
`w = m[3]*x + m[7]*y + m[11]*z + m[15]`, with `w = w || 1.0` modelled as
replacing an exactly zero `w` by `1.0`. -/
noncomputable def transformMat4 (a : Vec3) (m : Mat4) : Vec3 :=
  let w0 := m.m3 * a.x + m.m7 * a.y + m.m11 * a.z + m.m15
  let w := if w0 = 0 then 1.0 else w0
  ⟨(m.m0 * a.x + m.m4 * a.y + m.m8 * a.z + m.m12) / w,
   (m.m1 * a.x + m.m5 * a.y + m.m9 * a.z + m.m13) / w,
   (m.m2 * a.x + m.m6 * a.y + m.m10 * a.z + m.m14) / w⟩

/-- `vec3.transformQuat`: optimized double-cross-product expansion
`out = a + (2*qw) * (qxyz x a) + 2 * (qxyz x (qxyz x a))`, written with the
same intermediate values `uv`, `uuv` as the source. -/
def transformQuat (a : Vec3) (q : Quat) : Vec3 :=
  let uvx := q.y * a.z - q.z * a.y
  let uvy := q.z * a.x - q.x * a.z
  let uvz := q.x * a.y - q.y * a.x
  let uuvx := q.y * uvz - q.z * uvy
  let uuvy := q.z * uvx - q.x * uvz
  let uuvz := q.x * uvy - q.y * uvx
  let w2 := q.w * 2
  ⟨a.x + uvx * w2 + uuvx * 2, a.y + uvy * w2 + uuvy * 2, a.z + uvz * w2 + uuvz * 2⟩

end Vec3

namespace Vec4

/-- `vec4.squaredLength`: `x*x + y*y + z*z + w*w`. -/
def squaredLength (a : Vec4) : ℝ :=
  a.x * a.x + a.y * a.y + a.z * a.z + a.w * a.w

/-- `vec4.dot`: `a[0]*b[0] + a[1]*b[1] + a[2]*b[2] + a[3]*b[3]`. -/
def dot (a b : Vec4) : ℝ :=
  a.x * b.x + a.y * b.y + a.z * b.z + a.w * b.w

/-- `vec4.negate`: componentwise negation. -/
def negate (a : Vec4) : Vec4 :=
  ⟨-a.x, -a.y, -a.z, -a.w⟩

/-- `vec4.scale`: componentwise scaling by a scalar. -/
def scale (a : Vec4) (b : ℝ) : Vec4 :=
  ⟨a.x * b, a.y * b, a.z * b, a.w * b⟩

/-- `vec4.normalize`: `len = x*x+y*y+z*z+w*w; if (len > 0) len = 1/sqrt(len);
out = a * len`. When the squared length is not positive the scale factor is
left as the unmodified squared-length value. -/
noncomputable def normalize (a : Vec4) : Vec4 :=
  let len0 := a.x * a.x + a.y * a.y + a.z * a.z + a.w * a.w
  let len := if len0 > 0 then 1 / Real.sqrt len0 else len0
  ⟨a.x * len, a.y * len, a.z * len, a.w * len⟩

/-- `vec4.transformMat4`: column-major matrix times column vector. -/
def transformMat4 (a : Vec4) (m : Mat4) : Vec4 :=
  ⟨m.m0 * a.x + m.m4 * a.y + m.m8 * a.z + m.m12 * a.w,
   m.m1 * a.x + m.m5 * a.y + m.m9 * a.z + m.m13 * a.w,
   m.m2 * a.x + m.m6 * a.y + m.m10 * a.z + m.m14 * a.w,
   m.m3 * a.x + m.m7 * a.y + m.m11 * a.z + m.m15 * a.w⟩

/-- In-place model of `vec4.transformMat4` when `out` aliases `a`: the four
component reads are staged into locals (`x`, `y`, `z`, `w`) before the shared
buffer is overwritten field by field in source order. -/
def transformMat4Aliased (a : Vec4) (m : Mat4) : Vec4 :=
  let x := a.x
  let y := a.y
  let z := a.z
  let w := a.w
  let buf1 : Vec4 := { a with x := m.m0 * x + m.m4 * y + m.m8 * z + m.m12 * w }
  let buf2 : Vec4 := { buf1 with y := m.m1 * x + m.m5 * y + m.m9 * z + m.m13 * w }
  let buf3 : Vec4 := { buf2 with z := m.m2 * x + m.m6 * y + m.m10 * z + m.m14 * w }
  { buf3 with w := m.m3 * x + m.m7 * y + m.m11 * z + m.m15 * w }

/-- `vec4.transformQuat`: rotates the xyz part by the quaternion via
`q * (x,y,z,0) * conj(q)` written out, and copies `a[3]` into `out[3]`. -/
def transformQuat (a : Vec4) (q : Quat) : Vec4 :=
  let ix := q.w * a.x + q.y * a.z - q.z * a.y
  let iy := q.w * a.y + q.z * a.x - q.x * a.z
  let iz := q.w * a.z + q.x * a.y - q.y * a.x
  let iw := -q.x * a.x - q.y * a.y - q.z * a.z
  ⟨ix * q.w + iw * (-q.x) + iy * (-q.z) - iz * (-q.y),
   iy * q.w + iw * (-q.y) + iz * (-q.x) - ix * (-q.z),
   iz * q.w + iw * (-q.z) + ix * (-q.y) - iy * (-q.x),
   a.w⟩

/-- `vec4.exactEquals`: strict componentwise equality (`===`). -/
def exactEquals (a b : Vec4) : Prop :=
  a.x = b.x ∧ a.y = b.y ∧ a.z = b.z ∧ a.w = b.w

/-- `vec4.equals`: componentwise relative-plus-absolute tolerance check
with epsilon `0.000001`. -/
def equals (a b : Vec4) : Prop :=
  |a.x - b.x| ≤ 0.000001 * max 1.0 (max |a.x| |b.x|) ∧
  |a.y - b.y| ≤ 0.000001 * max 1.0 (max |a.y| |b.y|) ∧
  |a.z - b.z| ≤ 0.000001 * max 1.0 (max |a.z| |b.z|) ∧
  |a.w - b.w| ≤ 0.000001 * max 1.0 (max |a.w| |b.w|)

end Vec4

namespace Quat

/-- `quat.setAxisAngle`: `(sin(rad/2) * axis, cos(rad/2))`, with the
half-angle computed as `rad * 0.5` exactly as in the source. -/
noncomputable def setAxisAngle (axis : Vec3) (rad : ℝ) : Quat :=
  let r := rad * 0.5
  let s := Real.sin r
  ⟨s * axis.x, s * axis.y, s * axis.z, Real.cos r⟩

/-- `quat.getAxisAngle`: `rad = acos(q[3]) * 2; s = sin(rad/2)`; if
`s > 0.000001` the axis is the vector part divided by `s`, otherwise the
fixed axis `(1,0,0)`; the returned angle is `rad` in both branches. -/
noncomputable def getAxisAngle (q : Quat) : Vec3 × ℝ :=
  let rad := Real.arccos q.w * 2.0
  let s := Real.sin (rad / 2.0)
  let axis := if s > 0.000001 then (⟨q.x / s, q.y / s, q.z / s⟩ : Vec3)
              else (⟨1, 0, 0⟩ : Vec3)
  (axis, rad)

/-- `quat.multiply`: Hamilton product `a * b` in XYZW storage order. -/
def multiply (a b : Quat) : Quat :=
  ⟨a.x * b.w + a.w * b.x + a.y * b.z - a.z * b.y,
   a.y * b.w + a.w * b.y + a.z * b.x - a.x * b.z,
   a.z * b.w + a.w * b.z + a.x * b.y - a.y * b.x,
   a.w * b.w - a.x * b.x - a.y * b.y - a.z * b.z⟩

/-- In-place model of `quat.multiply` when `out` aliases the first operand:
all eight component reads are staged into locals before the shared buffer is
overwritten field by field in source order. -/
def multiplyAliasedFst (a b : Quat) : Quat :=
  let ax := a.x
  let ay := a.y
  let az := a.z
  let aw := a.w
  let bx := b.x
  let b1 := b.y
  let bz := b.z
  let bw := b.w
  let buf1 : Quat := { a with x := ax * bw + aw * bx + ay * bz - az * b1 }
  let buf2 : Quat := { buf1 with y := ay * bw + aw * b1 + az * bx - ax * bz }
  let buf3 : Quat := { buf2 with z := az * bw + aw * bz + ax * b1 - ay * bx }
  { buf3 with w := aw * bw - ax * bx - ay * b1 - az * bz }

/-- `quat.invert`: `dot = |a|^2; invDot = dot ? 1.0/dot : 0` (JavaScript
truthiness: zero maps to `0`), then `(-x, -y, -z, w) * invDot`. -/
noncomputable def invert (a : Quat) : Quat :=
  let d := a.x * a.x + a.y * a.y + a.z * a.z + a.w * a.w
  let invDot := if d = 0 then 0 else 1.0 / d
  ⟨-a.x * invDot, -a.y * invDot, -a.z * invDot, a.w * invDot⟩

/-- `quat.equals`: antipodal-aware comparison
`|vec4.dot(a, b)| >= 1 - 0.000001`. -/
def equals (a b : Quat) : Prop :=
  |Vec4.dot a b| ≥ 1 - 0.000001

/-- First slerp coefficient: `scale0 = sin((1-t)*omega)/sinom` in the
standard case `1 - cosom > 0.000001` (with `omega = acos(cosom)` and
`sinom = sin(omega)`), and the linear fallback `1 - t` otherwise. -/
noncomputable def slerpScale0 (cosom t : ℝ) : ℝ :=
  if 1 - cosom > 0.000001 then
    Real.sin ((1 - t) * Real.arccos cosom) / Real.sin (Real.arccos cosom)
  else 1 - t

/-- Second slerp coefficient: `scale1 = sin(t*omega)/sinom` in the standard
case `1 - cosom > 0.000001`, and the linear fallback `t` otherwise. -/
noncomputable def slerpScale1 (cosom t : ℝ) : ℝ :=
  if 1 - cosom > 0.000001 then
    Real.sin (t * Real.arccos cosom) / Real.sin (Real.arccos cosom)
  else t

/-- `quat.slerp`: `cosom = dot(a, b)`; if `cosom < 0` both `cosom` and the
components of `b` are negated (shortest-arc sign flip); the output is
`scale0 * a + scale1 * bFlipped` with the coefficients of `slerpScale0` and
`slerpScale1`. -/
noncomputable def slerp (a b : Quat) (t : ℝ) : Quat :=
  let cosom0 := a.x * b.x + a.y * b.y + a.z * b.z + a.w * b.w
  if cosom0 < 0 then
    ⟨slerpScale0 (-cosom0) t * a.x + slerpScale1 (-cosom0) t * (-b.x),
     slerpScale0 (-cosom0) t * a.y + slerpScale1 (-cosom0) t * (-b.y),
     slerpScale0 (-cosom0) t * a.z + slerpScale1 (-cosom0) t * (-b.z),
     slerpScale0 (-cosom0) t * a.w + slerpScale1 (-cosom0) t * (-b.w)⟩
  else
    ⟨slerpScale0 cosom0 t * a.x + slerpScale1 cosom0 t * b.x,
     slerpScale0 cosom0 t * a.y + slerpScale1 cosom0 t * b.y,
     slerpScale0 cosom0 t * a.z + slerpScale1 cosom0 t * b.z,
     slerpScale0 cosom0 t * a.w + slerpScale1 cosom0 t * b.w⟩

/-- `quat.rotationTo`: shortest rotation mapping unit vector `a` onto unit
vector `b`, with the three regimes of the source (near-antiparallel with a
world-axis fallback, near-parallel returning identity, general case
normalizing `(a x b, 1 + dot)`). -/
noncomputable def rotationTo (a b : Vec3) : Quat :=
  let d := Vec3.dot a b
  if d < -0.999999 then
    let tmp0 := Vec3.cross ⟨1, 0, 0⟩ a
    let tmp1 := if Vec3.length tmp0 < 0.000001 then Vec3.cross ⟨0, 1, 0⟩ a else tmp0
    setAxisAngle (Vec3.normalize tmp1) Real.pi
  else if d > 0.999999 then
    ⟨0, 0, 0, 1⟩
  else
    let c := Vec3.cross a b
    Vec4.normalize ⟨c.x, c.y, c.z, 1 + d⟩

end Quat

/-- Modelled from the spec: the `AngleOrder` enum (its defining file
`AngleOrder.ts` is not part of the provided sources) has exactly the six
intrinsic orderings named in the `fromEuler` doc comment, with the values
xyz, xzy, yxz, yzx, zxy and zyx. -/
def supportedOrders : List String :=
  ["xyz", "xzy", "yxz", "yzx", "zxy", "zyx"]

namespace Quat

/-- `quat.fromEuler`: converts intrinsic Euler angles in degrees to a
quaternion, switching on the order argument; each supported ordering has its
own sign pattern over half-angle sine/cosine products, and any other order
value throws (`Unknown angle order`), modelled as `Except.error`. -/
noncomputable def fromEuler (x y z : ℝ) (order : String) : Except String Quat :=
  let x1 := x * (Real.pi / 360)
  let y1 := y * (Real.pi / 360)
  let z1 := z * (Real.pi / 360)
  let sx := Real.sin x1
  let cx := Real.cos x1
  let sy := Real.sin y1
  let cy := Real.cos y1
  let sz := Real.sin z1
  let cz := Real.cos z1
  if order = "xyz" then
    Except.ok ⟨sx * cy * cz + cx * sy * sz, cx * sy * cz - sx * cy * sz,
               cx * cy * sz + sx * sy * cz, cx * cy * cz - sx * sy * sz⟩
  else if order = "xzy" then
    Except.ok ⟨sx * cy * cz - cx * sy * sz, cx * sy * cz - sx * cy * sz,
               cx * cy * sz + sx * sy * cz, cx * cy * cz + sx * sy * sz⟩
  else if order = "yxz" then
    Except.ok ⟨sx * cy * cz + cx * sy * sz, cx * sy * cz - sx * cy * sz,
               cx * cy * sz - sx * sy * cz, cx * cy * cz + sx * sy * sz⟩
  else if order = "yzx" then
    Except.ok ⟨sx * cy * cz + cx * sy * sz, cx * sy * cz + sx * cy * sz,
               cx * cy * sz - sx * sy * cz, cx * cy * cz - sx * sy * sz⟩
  else if order = "zxy" then
    Except.ok ⟨sx * cy * cz - cx * sy * sz, cx * sy * cz + sx * cy * sz,
               cx * cy * sz + sx * sy * cz, cx * cy * cz - sx * sy * sz⟩
  else if order = "zyx" then
    Except.ok ⟨sx * cy * cz - cx * sy * sz, cx * sy * cz + sx * cy * sz,
               cx * cy * sz - sx * sy * cz, cx * cy * cz + sx * sy * sz⟩
  else
    Except.error ("Unknown angle order " ++ order)

end Quat

/-!  Theorems for the claims about componentwise / guarded operations. -/

/-- Claim C3: `normalize` of a vector whose squared length is exactly zero
leaves the scale factor as the unmodified value 0, so the zero vector maps
to the zero vector, for both `vec3` and `vec4`. -/
theorem normalize_zero_vector (a : Vec3) (b : Vec4)
    (ha : Vec3.squaredLength a = 0) (hb : Vec4.squaredLength b = 0) :
    Vec3.normalize a = ⟨0, 0, 0⟩ ∧ Vec4.normalize b = ⟨0, 0, 0, 0⟩ := by
  constructor
  · unfold Vec3.normalize
    rw [show a.x * a.x + a.y * a.y + a.z * a.z = 0 from ha]
    simp
  · unfold Vec4.normalize
    rw [show b.x * b.x + b.y * b.y + b.z * b.z + b.w * b.w = 0 from hb]
    simp

/-- Witness for C3: concrete evaluation at the zero vectors. -/
theorem normalize_zero_vector_witness :
    Vec3.squaredLength ⟨0, 0, 0⟩ = 0 ∧ Vec4.squaredLength ⟨0, 0, 0, 0⟩ = 0 ∧
    (Vec3.normalize ⟨0, 0, 0⟩ = ⟨0, 0, 0⟩ ∧
     Vec4.normalize ⟨0, 0, 0, 0⟩ = ⟨0, 0, 0, 0⟩) :=
  ⟨by norm_num [Vec3.squaredLength], by norm_num [Vec4.squaredLength],
   normalize_zero_vector ⟨0, 0, 0⟩ ⟨0, 0, 0, 0⟩
     (by norm_num [Vec3.squaredLength]) (by norm_num [Vec4.squaredLength])⟩

/-- Claim C7: when the computed homogeneous coordinate
`w = m[3]*x + m[7]*y + m[11]*z + m[15]` is exactly 0, `vec3.transformMat4`
divides by `1.0` instead, so the output is the undivided matrix product. -/
theorem transformMat4_zero_w (a : Vec3) (m : Mat4)
    (h : m.m3 * a.x + m.m7 * a.y + m.m11 * a.z + m.m15 = 0) :
    Vec3.transformMat4 a m =
      ⟨m.m0 * a.x + m.m4 * a.y + m.m8 * a.z + m.m12,
       m.m1 * a.x + m.m5 * a.y + m.m9 * a.z + m.m13,
       m.m2 * a.x + m.m6 * a.y + m.m10 * a.z + m.m14⟩ := by
  unfold Vec3.transformMat4
  dsimp only
  rw [if_pos h]
  norm_num

/-- Witness for C7: a matrix with zero projective row applied to `(1,2,3)`. -/
theorem transformMat4_zero_w_witness :
    ((⟨0, 0, 0, 0, 0, 0, 0, 0, 0, 0, 0, 0, 0, 0, 0, 0⟩ : Mat4).m3 * (1 : ℝ) +
       (⟨0, 0, 0, 0, 0, 0, 0, 0, 0, 0, 0, 0, 0, 0, 0, 0⟩ : Mat4).m7 * 2 +
       (⟨0, 0, 0, 0, 0, 0, 0, 0, 0, 0, 0, 0, 0, 0, 0, 0⟩ : Mat4).m11 * 3 +
       (⟨0, 0, 0, 0, 0, 0, 0, 0, 0, 0, 0, 0, 0, 0, 0, 0⟩ : Mat4).m15 = 0) ∧
    Vec3.transformMat4 ⟨1, 2, 3⟩ ⟨0, 0, 0, 0, 0, 0, 0, 0, 0, 0, 0, 0, 0, 0, 0, 0⟩ =
      ⟨(⟨0, 0, 0, 0, 0, 0, 0, 0, 0, 0, 0, 0, 0, 0, 0, 0⟩ : Mat4).m0 * 1 +
         (⟨0, 0, 0, 0, 0, 0, 0, 0, 0, 0, 0, 0, 0, 0, 0, 0⟩ : Mat4).m4 * 2 +
         (⟨0, 0, 0, 0, 0, 0, 0, 0, 0, 0, 0, 0, 0, 0, 0, 0⟩ : Mat4).m8 * 3 +
         (⟨0, 0, 0, 0, 0, 0, 0, 0, 0, 0, 0, 0, 0, 0, 0, 0⟩ : Mat4).m12,
       (⟨0, 0, 0, 0, 0, 0, 0, 0, 0, 0, 0, 0, 0, 0, 0, 0⟩ : Mat4).m1 * 1 +
         (⟨0, 0, 0, 0, 0, 0, 0, 0, 0, 0, 0, 0, 0, 0, 0, 0⟩ : Mat4).m5 * 2 +
         (⟨0, 0, 0, 0, 0, 0, 0, 0, 0, 0, 0, 0, 0, 0, 0, 0⟩ : Mat4).m9 * 3 +
         (⟨0, 0, 0, 0, 0, 0, 0, 0, 0, 0, 0, 0, 0, 0, 0, 0⟩ : Mat4).m13,
       (⟨0, 0, 0, 0, 0, 0, 0, 0, 0, 0, 0, 0, 0, 0, 0, 0⟩ : Mat4).m2 * 1 +
         (⟨0, 0, 0, 0, 0, 0, 0, 0, 0, 0, 0, 0, 0, 0, 0, 0⟩ : Mat4).m6 * 2 +
         (⟨0, 0, 0, 0, 0, 0, 0, 0, 0, 0, 0, 0, 0, 0, 0, 0⟩ : Mat4).m10 * 3 +
         (⟨0, 0, 0, 0, 0, 0, 0, 0, 0, 0, 0, 0, 0, 0, 0, 0⟩ : Mat4).m14⟩ :=
  ⟨by norm_num,
   transformMat4_zero_w ⟨1, 2, 3⟩ ⟨0, 0, 0, 0, 0, 0, 0, 0, 0, 0, 0, 0, 0, 0, 0, 0⟩
     (by norm_num)⟩

/-- Claim C9: `vec4.transformQuat` copies the input w component through
unchanged; only x, y, z are affected by the rotation. -/
theorem transformQuat_preserves_w (a : Vec4) (q : Quat) :
    (Vec4.transformQuat a q).w = a.w := rfl

/-- Claim C10: `quat.invert` sets the reciprocal factor to 0 when the
squared norm `dot(a,a)` is exactly 0, so inverting the zero quaternion
yields the zero quaternion. -/
theorem invert_zero_norm (a : Quat) (h : Vec4.dot a a = 0) :
    Quat.invert a = ⟨0, 0, 0, 0⟩ := by
  unfold Quat.invert
  dsimp only
  rw [if_pos (show a.x * a.x + a.y * a.y + a.z * a.z + a.w * a.w = 0 from h)]
  norm_num

/-- Witness for C10: concrete evaluation at the zero quaternion. -/
theorem invert_zero_norm_witness :
    Vec4.dot ⟨0, 0, 0, 0⟩ ⟨0, 0, 0, 0⟩ = 0 ∧
    Quat.invert ⟨0, 0, 0, 0⟩ = ⟨0, 0, 0, 0⟩ :=
  ⟨by norm_num [Vec4.dot],
   invert_zero_norm ⟨0, 0, 0, 0⟩ (by norm_num [Vec4.dot])⟩

/-- Claim C8: with the component reads staged into locals before any write,
executing `quat.multiply(a, a, b)` or `vec4.transformMat4(a, a, m)` with the
output buffer aliased to the first input leaves in the shared buffer exactly
the result a distinct output buffer would receive. -/
theorem aliased_out_matches_pure (a b : Quat) (v : Vec4) (m : Mat4) :
    Quat.multiplyAliasedFst a b = Quat.multiply a b ∧
    Vec4.transformMat4Aliased v m = Vec4.transformMat4 v m :=
  ⟨rfl, rfl⟩

/-- Claim C6: for a unit quaternion, `quat.equals` accepts the antipodal
quaternion (the negation of all components) while `vec4.exactEquals`
rejects it. -/
theorem equals_antipodal (q : Quat) (h : Vec4.dot q q = 1) :
    Quat.equals q (Vec4.negate q) ∧ ¬ Vec4.exactEquals q (Vec4.negate q) := by
  constructor
  · unfold Quat.equals Vec4.negate Vec4.dot
    unfold Vec4.dot at h
    have : q.x * -q.x + q.y * -q.y + q.z * -q.z + q.w * -q.w = -1 := by
      nlinarith [h]
    rw [this]
    norm_num
  · rintro ⟨hx, hy, hz, hw⟩
    unfold Vec4.negate at hx hy hz hw
    simp only at hx hy hz hw
    have hx0 : q.x = 0 := by linarith
    have hy0 : q.y = 0 := by linarith
    have hz0 : q.z = 0 := by linarith
    have hw0 : q.w = 0 := by linarith
    unfold Vec4.dot at h
    rw [hx0, hy0, hz0, hw0] at h
    norm_num at h

/-- Witness for C6: the identity quaternion and its negation. -/
theorem equals_antipodal_witness :
    Vec4.dot ⟨0, 0, 0, 1⟩ ⟨0, 0, 0, 1⟩ = 1 ∧
    (Quat.equals ⟨0, 0, 0, 1⟩ (Vec4.negate ⟨0, 0, 0, 1⟩) ∧
     ¬ Vec4.exactEquals ⟨0, 0, 0, 1⟩ (Vec4.negate ⟨0, 0, 0, 1⟩)) :=
  ⟨by norm_num [Vec4.dot],
   equals_antipodal ⟨0, 0, 0, 1⟩ (by norm_num [Vec4.dot])⟩

/-!  Helper lemmas about the slerp coefficients. -/

/-- The sine of `arccos c` is positive whenever `0 <= c` and the slerp
standard-case condition `1 - c > 0.000001` holds. -/
theorem sin_arccos_pos_of_slerp_cond {c : ℝ} (h0 : 0 ≤ c)
    (h1 : 1 - c > 0.000001) : 0 < Real.sin (Real.arccos c) := by
  rw [Real.sin_arccos]
  apply Real.sqrt_pos.mpr
  nlinarith

/-- At `t = 0` the first slerp coefficient is 1 (in both branches). -/
theorem slerpScale0_at_zero {c : ℝ} (h0 : 0 ≤ c) :
    Quat.slerpScale0 c 0 = 1 := by
  unfold Quat.slerpScale0
  split_ifs with h
  · rw [show ((1 : ℝ) - 0) * Real.arccos c = Real.arccos c by ring]
    exact div_self (ne_of_gt (sin_arccos_pos_of_slerp_cond h0 h))
  · norm_num

/-- At `t = 0` the second slerp coefficient is 0 (in both branches). -/
theorem slerpScale1_at_zero (c : ℝ) : Quat.slerpScale1 c 0 = 0 := by
  unfold Quat.slerpScale1
  split_ifs with h
  · rw [show ((0 : ℝ)) * Real.arccos c = 0 by ring, Real.sin_zero, zero_div]
  · rfl

/-- At `t = 1` the first slerp coefficient is 0 (in both branches). -/
theorem slerpScale0_at_one (c : ℝ) : Quat.slerpScale0 c 1 = 0 := by
  unfold Quat.slerpScale0
  split_ifs with h
  · rw [show ((1 : ℝ) - 1) * Real.arccos c = 0 by ring, Real.sin_zero, zero_div]
  · norm_num

/-- At `t = 1` the second slerp coefficient is 1 (in both branches). -/
theorem slerpScale1_at_one {c : ℝ} (h0 : 0 ≤ c) :
    Quat.slerpScale1 c 1 = 1 := by
  unfold Quat.slerpScale1
  split_ifs with h
  · rw [one_mul]
    exact div_self (ne_of_gt (sin_arccos_pos_of_slerp_cond h0 h))
  · rfl

/-- Claim C2 (amended): `slerp(q,q,t) = q` for unit `q` and `slerp(a,b,0) = a`
hold exactly; at `t = 1` the result is `b` when `dot(a,b) >= 0` but the
negation of `b` when `dot(a,b) < 0` (the shortest-arc sign flip). -/
theorem slerp_endpoint_behavior (q a b : Quat) (t : ℝ)
    (hq : Vec4.dot q q = 1) :
    Quat.slerp q q t = q ∧ Quat.slerp a b 0 = a ∧
    (0 ≤ Vec4.dot a b → Quat.slerp a b 1 = b) ∧
    (Vec4.dot a b < 0 → Quat.slerp a b 1 = Vec4.negate b) := by
  unfold Vec4.dot at hq
  refine ⟨?_, ?_, ?_, ?_⟩
  · unfold Quat.slerp
    dsimp only
    rw [hq, if_neg (by norm_num : ¬ ((1 : ℝ) < 0))]
    have h0 : Quat.slerpScale0 1 t = 1 - t := by
      unfold Quat.slerpScale0
      rw [if_neg (by norm_num : ¬ ((1 : ℝ) - 1 > 0.000001))]
    have h1 : Quat.slerpScale1 1 t = t := by
      unfold Quat.slerpScale1
      rw [if_neg (by norm_num : ¬ ((1 : ℝ) - 1 > 0.000001))]
    rw [h0, h1]
    ext <;> dsimp <;> ring
  · unfold Quat.slerp
    dsimp only
    split_ifs with h
    · rw [slerpScale0_at_zero (by linarith), slerpScale1_at_zero]
      ext <;> dsimp <;> ring
    · rw [slerpScale0_at_zero (by linarith [not_lt.mp h]), slerpScale1_at_zero]
      ext <;> dsimp <;> ring
  · intro hd
    unfold Vec4.dot at hd
    unfold Quat.slerp
    dsimp only
    rw [if_neg (not_lt.mpr hd)]
    rw [slerpScale0_at_one, slerpScale1_at_one hd]
    ext <;> dsimp <;> ring
  · intro hd
    unfold Vec4.dot at hd
    unfold Quat.slerp
    dsimp only
    rw [if_pos hd]
    rw [slerpScale0_at_one, slerpScale1_at_one (by linarith)]
    unfold Vec4.negate
    ext <;> dsimp <;> ring

/-- Witness for C2 (amended): concrete unit quaternions. -/
theorem slerp_endpoint_behavior_witness :
    Vec4.dot ⟨0, 0, 0, 1⟩ ⟨0, 0, 0, 1⟩ = 1 ∧
    (Quat.slerp ⟨0, 0, 0, 1⟩ ⟨0, 0, 0, 1⟩ 0.5 = ⟨0, 0, 0, 1⟩ ∧
     Quat.slerp ⟨1, 0, 0, 0⟩ ⟨0, 1, 0, 0⟩ 0 = ⟨1, 0, 0, 0⟩ ∧
     (0 ≤ Vec4.dot ⟨1, 0, 0, 0⟩ ⟨0, 1, 0, 0⟩ →
       Quat.slerp ⟨1, 0, 0, 0⟩ ⟨0, 1, 0, 0⟩ 1 = ⟨0, 1, 0, 0⟩) ∧
     (Vec4.dot ⟨1, 0, 0, 0⟩ ⟨0, 1, 0, 0⟩ < 0 →
       Quat.slerp ⟨1, 0, 0, 0⟩ ⟨0, 1, 0, 0⟩ 1 = Vec4.negate ⟨0, 1, 0, 0⟩)) :=
  ⟨by norm_num [Vec4.dot],
   slerp_endpoint_behavior ⟨0, 0, 0, 1⟩ ⟨1, 0, 0, 0⟩ ⟨0, 1, 0, 0⟩ 0.5
     (by norm_num [Vec4.dot])⟩

/-- Counterexample for C2 as stated: for the unit quaternions
`a = (0,0,0,1)` and `b = (0,0,0,-1)` (negative dot product), `slerp(a,b,1)`
is `(0,0,0,1) = -b`, which is not within componentwise tolerance of `b`. -/
theorem slerp_one_antipodal_cex :
    Vec4.dot ⟨0, 0, 0, 1⟩ ⟨0, 0, 0, 1⟩ = 1 ∧
    Vec4.dot ⟨0, 0, 0, -1⟩ ⟨0, 0, 0, -1⟩ = 1 ∧
    Quat.slerp ⟨0, 0, 0, 1⟩ ⟨0, 0, 0, -1⟩ 1 = ⟨0, 0, 0, 1⟩ ∧
    ¬ Vec4.equals (Quat.slerp ⟨0, 0, 0, 1⟩ ⟨0, 0, 0, -1⟩ 1) ⟨0, 0, 0, -1⟩ := by
  have hs : Quat.slerp ⟨0, 0, 0, 1⟩ ⟨0, 0, 0, -1⟩ 1 = ⟨0, 0, 0, 1⟩ := by
    unfold Quat.slerp
    dsimp only
    rw [if_pos (by norm_num : (0 : ℝ) * 0 + 0 * 0 + 0 * 0 + 1 * -1 < 0)]
    rw [slerpScale0_at_one, slerpScale1_at_one
      (by norm_num : (0 : ℝ) ≤ -(0 * 0 + 0 * 0 + 0 * 0 + 1 * -1))]
    ext <;> dsimp <;> ring
  refine ⟨by norm_num [Vec4.dot], by norm_num [Vec4.dot], hs, ?_⟩
  rw [hs]
  rintro ⟨-, -, -, h4⟩
  dsimp at h4
  rw [show |(1 : ℝ) - -1| = 2 by norm_num] at h4
  norm_num at h4

/-- Claim C1 (amended): when the recovered half-angle sine
`s = sin(acos(q[3]))` has magnitude below `0.000001`, `getAxisAngle` sets the
axis to the fixed axis `(1,0,0)` but returns the angle `acos(q[3]) * 2`
unchanged (which is `2 * pi`, not 0, for `q[3] = -1`). -/
theorem getAxisAngle_degenerate (q : Quat)
    (h : |Real.sin (Real.arccos q.w)| < 0.000001) :
    (Quat.getAxisAngle q).1 = ⟨1, 0, 0⟩ ∧
    (Quat.getAxisAngle q).2 = Real.arccos q.w * 2.0 := by
  unfold Quat.getAxisAngle
  dsimp only
  have e : Real.arccos q.w * 2.0 / 2.0 = Real.arccos q.w := by ring
  rw [e]
  have hlt : Real.sin (Real.arccos q.w) < 0.000001 := (abs_lt.mp h).2
  rw [if_neg (not_lt.mpr (le_of_lt hlt))]
  exact ⟨rfl, rfl⟩

/-- Witness for C1 (amended): the identity quaternion `(0,0,0,1)`. -/
theorem getAxisAngle_degenerate_witness :
    |Real.sin (Real.arccos ((⟨0, 0, 0, 1⟩ : Quat)).w)| < 0.000001 ∧
    ((Quat.getAxisAngle ⟨0, 0, 0, 1⟩).1 = ⟨1, 0, 0⟩ ∧
     (Quat.getAxisAngle ⟨0, 0, 0, 1⟩).2 =
       Real.arccos ((⟨0, 0, 0, 1⟩ : Quat)).w * 2.0) :=
  ⟨by norm_num [Real.arccos_one],
   getAxisAngle_degenerate ⟨0, 0, 0, 1⟩ (by norm_num [Real.arccos_one])⟩

/-- Counterexample for C1 as stated: at `q = (0,0,0,-1)` the half-angle sine
magnitude `|sin(acos(-1))| = 0` is below `0.000001` and the axis is `(1,0,0)`,
but the returned angle is `2 * pi`, not 0. -/
theorem getAxisAngle_angle_cex :
    |Real.sin (Real.arccos ((⟨0, 0, 0, -1⟩ : Quat)).w)| < 0.000001 ∧
    (Quat.getAxisAngle ⟨0, 0, 0, -1⟩).1 = ⟨1, 0, 0⟩ ∧
    (Quat.getAxisAngle ⟨0, 0, 0, -1⟩).2 ≠ 0 := by
  have hw : ((⟨0, 0, 0, -1⟩ : Quat)).w = -1 := rfl
  have hs : |Real.sin (Real.arccos ((⟨0, 0, 0, -1⟩ : Quat)).w)| < 0.000001 := by
    rw [hw, Real.arccos_neg_one, Real.sin_pi]
    norm_num
  refine ⟨hs, ?_, ?_⟩
  · unfold Quat.getAxisAngle
    dsimp only
    have e : Real.arccos (-1 : ℝ) * 2.0 / 2.0 = Real.pi := by
      rw [Real.arccos_neg_one]; ring
    rw [e, Real.sin_pi]
    rw [if_neg (by norm_num : ¬ ((0 : ℝ) > 0.000001))]
  · unfold Quat.getAxisAngle
    dsimp only
    rw [Real.arccos_neg_one]
    have : (0 : ℝ) < Real.pi * 2.0 := by
      have := Real.pi_pos
      linarith
    exact ne_of_gt this

/-- Claim C4: `rotationTo((1,0,0), (-1,0,0))` takes the antiparallel branch,
falls back to the second world axis (the cross product with the first world
axis is zero), and produces the half-turn quaternion `(0,0,-1,0)`; applying
it to `(1,0,0)` via `transformQuat` gives exactly `(-1,0,0)`. -/
theorem rotationTo_antiparallel_halfturn :
    Quat.rotationTo ⟨1, 0, 0⟩ ⟨-1, 0, 0⟩ = ⟨0, 0, -1, 0⟩ ∧
    Vec3.transformQuat ⟨1, 0, 0⟩ (Quat.rotationTo ⟨1, 0, 0⟩ ⟨-1, 0, 0⟩) =
      ⟨-1, 0, 0⟩ := by
  have hq : Quat.rotationTo ⟨1, 0, 0⟩ ⟨-1, 0, 0⟩ = ⟨0, 0, -1, 0⟩ := by
    unfold Quat.rotationTo
    dsimp only
    rw [show Vec3.dot ⟨1, 0, 0⟩ ⟨-1, 0, 0⟩ = -1 by norm_num [Vec3.dot]]
    rw [if_pos (by norm_num : (-1 : ℝ) < -0.999999)]
    rw [show Vec3.cross ⟨1, 0, 0⟩ ⟨1, 0, 0⟩ = ⟨0, 0, 0⟩ by
      norm_num [Vec3.cross]]
    rw [show Vec3.length ⟨0, 0, 0⟩ = 0 by
      norm_num [Vec3.length, Real.sqrt_zero]]
    rw [if_pos (by norm_num : (0 : ℝ) < 0.000001)]
    rw [show Vec3.cross ⟨0, 1, 0⟩ ⟨1, 0, 0⟩ = ⟨0, 0, -1⟩ by
      norm_num [Vec3.cross]]
    rw [show Vec3.normalize ⟨0, 0, -1⟩ = ⟨0, 0, -1⟩ by
      unfold Vec3.normalize
      dsimp only
      norm_num [Real.sqrt_one]]
    unfold Quat.setAxisAngle
    dsimp only
    rw [show Real.pi * 0.5 = Real.pi / 2 by ring, Real.sin_pi_div_two,
      Real.cos_pi_div_two]
    ext <;> norm_num
  refine ⟨hq, ?_⟩
  rw [hq]
  unfold Vec3.transformQuat
  ext <;> norm_num

/-- Claim C5: `fromEuler` returns a rejected-input error for every order
value outside the six supported intrinsic orderings, and returns normally
for each of the six supported values. -/
theorem fromEuler_order_validation (x y z : ℝ) (order : String) :
    (order ∉ supportedOrders →
      Quat.fromEuler x y z order =
        Except.error ("Unknown angle order " ++ order)) ∧
    (order ∈ supportedOrders → ∃ q, Quat.fromEuler x y z order = Except.ok q) := by
  constructor
  · intro h
    simp only [supportedOrders, List.mem_cons, List.not_mem_nil, or_false,
      not_or] at h
    obtain ⟨h1, h2, h3, h4, h5, h6⟩ := h
    unfold Quat.fromEuler
    dsimp only
    rw [if_neg h1, if_neg h2, if_neg h3, if_neg h4, if_neg h5, if_neg h6]
  · intro h
    simp only [supportedOrders, List.mem_cons, List.not_mem_nil, or_false] at h
    unfold Quat.fromEuler
    dsimp only
    rcases h with h | h | h | h | h | h <;> subst h
    · exact ⟨_, by rw [if_pos rfl]⟩
    · exact ⟨_, by rw [if_neg (by decide), if_pos rfl]⟩
    · exact ⟨_, by rw [if_neg (by decide), if_neg (by decide), if_pos rfl]⟩
    · exact ⟨_, by
        rw [if_neg (by decide), if_neg (by decide), if_neg (by decide),
          if_pos rfl]⟩
    · exact ⟨_, by
        rw [if_neg (by decide), if_neg (by decide), if_neg (by decide),
          if_neg (by decide), if_pos rfl]⟩
    · exact ⟨_, by
        rw [if_neg (by decide), if_neg (by decide), if_neg (by decide),
          if_neg (by decide), if_neg (by decide), if_pos rfl]⟩

/-- Witness for C5: an unsupported order value is rejected and a supported
one is accepted, at concrete angles. -/
theorem fromEuler_order_validation_witness :
    ("abc" : String) ∉ supportedOrders ∧
    ("xyz" : String) ∈ supportedOrders ∧
    Quat.fromEuler 0 0 0 "abc" =
      Except.error ("Unknown angle order " ++ "abc") ∧
    (∃ q, Quat.fromEuler 0 0 0 "xyz" = Except.ok q) :=
  ⟨by decide, by decide,
   (fromEuler_order_validation 0 0 0 "abc").1 (by decide),
   (fromEuler_order_validation 0 0 0 "xyz").2 (by decide)⟩
